import Mathlib

/-!
Formal model of the entity-update / combat loop of the `newzombiegame`
repository (a top-down survival game prototype).

Numbers: the JavaScript source computes with IEEE doubles; the model uses `ℚ`.
`Math.sqrt` is not rational, so every embedded function that the source feeds
through `Math.sqrt` receives a square-root oracle `sqrt : ℚ → ℚ` as an explicit
parameter; theorems that need arithmetic facts about a distance assume the
oracle is exact (`sqrt s * sqrt s = s`, `0 ≤ sqrt s`) at the finitely many
points actually used, and witnesses instantiate the oracle on perfect squares.

Sources modelled:
- `src/components/Player.tsx`   (class Player: takeDamage / heal / revive)
- `src/unnamed/part_008`        (class Zombie: update / wander / takeDamage /
                                 applyRagdollEffect / recoverFromRagdoll)
- `src/components/GameEngine.tsx` (the canonical engine variant containing the
  weapon-based `shootZombie`, `meleeAttack`, `increaseDifficulty`,
  `spawnZombie` / `removeOldestDistantZombie`, `findSafeSpawnLocation`)

Mesh construction, materials, rotations, audio and DOM manipulation are
presentation-only and are not part of the model, with one exception: the mesh's
vertical coordinate (`mesh.position.y`) participates in the 3-D distance used
by `shootZombie`, so it is kept as the field `meshY`.
-/

/-- A 3-D vector with rational coordinates (models `THREE.Vector3` where the
exact coordinates matter to game logic). -/
structure Vec3 where
  x : ℚ
  y : ℚ
  z : ℚ
deriving DecidableEq

/-- State of one zombie (class `Zombie` in `src/unnamed/part_008`).  Field
defaults are the source's initializers.  `y` is the ground-plane depth
coordinate (the source's `this.y`, stored in `mesh.position.z`); `meshY` is
the vertical mesh coordinate (0 on the ground, 0.3 when fallen dead, 0.5 while
ragdolled).  `kvx`/`kvz` are the x/z components of `knockbackVelocity`. -/
structure Zombie where
  x : ℚ
  y : ℚ
  speed : ℚ := 5/2
  health : ℚ := 50
  maxHealth : ℚ := 50
  isAlive : Bool := true
  deathTime : Option ℚ := none
  meshY : ℚ := 0
  animationTime : ℚ := 0
  isRagdolled : Bool := false
  ragdollEndTime : ℚ := 0
  knockbackStartTime : ℚ := 0
  kvx : ℚ := 0
  kvz : ℚ := 0
deriving DecidableEq

/-- `private detectionRange: number = 50` — constant-valued private field of
`Zombie`, never reassigned; modelled as a constant. -/
def Zombie.detectionRange : ℚ := 50

/-- `private ragdollDuration: number = 1.5` (seconds), never reassigned. -/
def Zombie.ragdollDuration : ℚ := 3/2

/-- `private knockbackDuration: number = 0.5` (seconds), never reassigned. -/
def Zombie.knockbackDuration : ℚ := 1/2

/-- State of the player (class `Player` in `src/components/Player.tsx`);
only the actor fields that the modelled operations read or write. -/
structure Player where
  health : ℚ := 100
  maxHealth : ℚ := 100
  isAlive : Bool := true
  kills : ℕ := 0
deriving DecidableEq

/-- `Player.takeDamage(amount)`: no-op when dead, otherwise subtract `amount`
from health and clamp at 0, flipping `isAlive` when the clamp fires.  (The
mesh rotation applied on death is presentation-only.) -/
def Player.takeDamage (p : Player) (amount : ℚ) : Player :=
  if p.isAlive = false then p
  else
    let h := p.health - amount
    if h ≤ 0 then { p with health := 0, isAlive := false }
    else { p with health := h }

/-- `Player.heal(amount)`: no-op when dead, otherwise add `amount` capped at
`maxHealth`. -/
def Player.heal (p : Player) (amount : ℚ) : Player :=
  if p.isAlive = false then p
  else { p with health := min (p.health + amount) p.maxHealth }

/-- `Player.revive()`: restore full health and the alive flag (position /
rotation / animation resets are presentation-only). -/
def Player.revive (p : Player) : Player :=
  { p with health := p.maxHealth, isAlive := true }

/-- `Zombie.takeDamage(amount)` from `src/unnamed/part_008`.  The source
sanitizes its argument with `Math.abs(Number(amount)) || 0`; a `NaN` produced
by the numeric coercion falls through `|| 0` to `0`.  `ℚ` has no `NaN`, so the
argument is an `Option ℚ` whose `none` case stands for a value whose coercion
is `NaN`; `Math.abs` is `|·|` and the `|| 0` fallback is the `none ↦ 0` case
(`|a| = 0` already coincides with `a = 0`).  `now` is `performance.now()/1000`
at the call.  On death the mesh falls (`meshY := 0.3`). -/
def Zombie.takeDamage (z : Zombie) (now : ℚ) (amount : Option ℚ) : Zombie :=
  if z.isAlive = false then z
  else
    let damageAmount : ℚ := match amount with
      | none => 0
      | some a => |a|
    if damageAmount = 0 then z
    else
      let health1 := max 0 (z.health - damageAmount)
      if health1 ≤ 0 then
        { z with health := 0, isAlive := false, deathTime := some now, meshY := 3/10 }
      else
        { z with health := health1 }

/-- Actor invariant from the spec: health within `[0, maxHealth]` and
`isAlive` false iff health is 0 (player form). -/
def Player.inv (p : Player) : Prop :=
  0 ≤ p.health ∧ p.health ≤ p.maxHealth ∧ (p.isAlive = false ↔ p.health = 0)

/-- Actor invariant from the spec, zombie form. -/
def Zombie.inv (z : Zombie) : Prop :=
  0 ≤ z.health ∧ z.health ≤ z.maxHealth ∧ (z.isAlive = false ↔ z.health = 0)

instance (p : Player) : Decidable p.inv := by
  unfold Player.inv; infer_instance

instance (z : Zombie) : Decidable z.inv := by
  unfold Zombie.inv; infer_instance

/-- Squared ground-plane distance from the zombie to the player, with the
source's operand order `dx := playerPos.x - this.x`, `dz := playerPos.z -
this.y`.  `Zombie.update` feeds this through `Math.sqrt`. -/
def Zombie.distSq (z : Zombie) (px pz : ℚ) : ℚ :=
  (px - z.x) * (px - z.x) + (pz - z.y) * (pz - z.y)

/-- The chase speed `this.speed * (1 + (1 - Math.min(distance, detectionRange)
/ detectionRange) * 0.5)` from `Zombie.update`. -/
def Zombie.chaseSpeed (z : Zombie) (distance : ℚ) : ℚ :=
  z.speed * (1 + (1 - min distance Zombie.detectionRange / Zombie.detectionRange) * (1/2))

/-- `Zombie.wander(deltaTime)`: add small random jitter
`(Math.random() - 0.5) * wanderAmount * deltaTime` to each coordinate, with
`wanderAmount = 0.5`.  `randX`/`randZ` are the two `Math.random()` samples. -/
def Zombie.wander (z : Zombie) (deltaTime randX randZ : ℚ) : Zombie :=
  let wanderAmount : ℚ := 1/2
  { z with x := z.x + (randX - 1/2) * wanderAmount * deltaTime,
           y := z.y + (randZ - 1/2) * wanderAmount * deltaTime }

/-- The pursuit branch of `Zombie.update` (taken when `distance ≤
detectionRange`): move only when outside the 0.5 stand-off buffer, integrate
along the normalized direction at `chaseSpeed`, and if the tentative position
would land inside the buffer, rescale the step by `(distance -
minDistanceBuffer) / distance` instead.  `distance` is the value the caller
computed as `Math.sqrt(dx*dx + dz*dz)`. -/
def Zombie.chase (sqrt : ℚ → ℚ) (z : Zombie) (deltaTime px pz distance : ℚ) : Zombie :=
  let minDistanceBuffer : ℚ := 1/2
  if minDistanceBuffer < distance then
    let dx := px - z.x
    let dz := pz - z.y
    let normalizedDx := dx / distance
    let normalizedDz := dz / distance
    let chaseSpeed := z.chaseSpeed distance
    let newX := z.x + normalizedDx * chaseSpeed * deltaTime
    let newY := z.y + normalizedDz * chaseSpeed * deltaTime
    let newDx := px - newX
    let newDz := pz - newY
    let newDistance := sqrt (newDx * newDx + newDz * newDz)
    if minDistanceBuffer ≤ newDistance then
      { z with x := newX, y := newY }
    else
      let bufferScale := (distance - minDistanceBuffer) / distance
      { z with x := z.x + normalizedDx * chaseSpeed * deltaTime * bufferScale,
               y := z.y + normalizedDz * chaseSpeed * deltaTime * bufferScale }
  else z

/-- `Zombie.recoverFromRagdoll()`: clear the ragdoll flag and drop the mesh
back to the ground (rotation resets are presentation-only). -/
def Zombie.recoverFromRagdoll (z : Zombie) : Zombie :=
  { z with isRagdolled := false, meshY := 0 }

/-- The ragdoll branch of `Zombie.update`: while `knockbackElapsed <
knockbackDuration`, interpolate the position along `knockbackVelocity` with an
ease-out cubic; when `currentTime ≥ ragdollEndTime`, recover.  Normal movement
is skipped entirely (the branch returns early). -/
def Zombie.ragdollStep (z : Zombie) (currentTime : ℚ) : Zombie :=
  let knockbackElapsed := currentTime - z.knockbackStartTime
  let z1 :=
    if knockbackElapsed < Zombie.knockbackDuration then
      let progress := knockbackElapsed / Zombie.knockbackDuration
      let easedProgress := 1 - (1 - progress) ^ 3
      let startX := z.x - z.kvx * Zombie.knockbackDuration
      let startY := z.y - z.kvz * Zombie.knockbackDuration
      { z with x := startX + z.kvx * Zombie.knockbackDuration * easedProgress,
               y := startY + z.kvz * Zombie.knockbackDuration * easedProgress }
    else z
  if Zombie.ragdollEndTime z1 ≤ currentTime then z1.recoverFromRagdoll else z1

/-- `Zombie.update(deltaTime, playerPos)`: advance the animation clock; if
ragdolled, run only the knockback animation; otherwise pursue the player when
`distance ≤ detectionRange` and wander when beyond it.  `currentTime` is
`performance.now()/1000`; `randX`/`randZ` are the `Math.random()` samples the
wander branch would draw. -/
def Zombie.update (sqrt : ℚ → ℚ) (z : Zombie)
    (deltaTime px pz currentTime randX randZ : ℚ) : Zombie :=
  let z0 := { z with animationTime := z.animationTime + deltaTime }
  if z0.isRagdolled then
    z0.ragdollStep currentTime
  else
    let distance := sqrt (z0.distSq px pz)
    if distance ≤ Zombie.detectionRange then
      Zombie.chase sqrt z0 deltaTime px pz distance
    else
      z0.wander deltaTime randX randZ

/-- `Zombie.applyRagdollEffect(knockbackDirection, knockbackForce)` for the
melee path, where a direction and force are always supplied: set the ragdoll
window and the knockback velocity, and lift the mesh (`meshY := 0.5`).  The
stored `originalRotation`, random tumbling rotations and
`knockbackTargetPosition` are presentation-only / never read. -/
def Zombie.applyRagdollEffect (z : Zombie) (currentTime kdirX kdirZ force : ℚ) : Zombie :=
  { z with ragdollEndTime := currentTime + Zombie.ragdollDuration,
           isRagdolled := true,
           meshY := 1/2,
           knockbackStartTime := currentTime,
           kvx := kdirX * force,
           kvz := kdirZ * force }

/-- Weapon parameters read by `shootZombie` (class `Weapon` in
`src/components/Weapon.tsx`); defaults are the pistol's values. -/
structure Weapon where
  damage : ℚ := 50
  range : ℚ := 50
  accuracy : ℚ := 9/10
deriving DecidableEq

/-- The zombie's mesh position as a 3-D point: `(this.x, mesh.position.y,
this.y)`. -/
def Zombie.meshPos (z : Zombie) : Vec3 :=
  ⟨z.x, z.meshY, z.y⟩

/-- `toZombie.length()` in `shootZombie`: 3-D distance from the bullet start
(weapon tip) to the zombie's mesh position, via the sqrt oracle. -/
def shootDist (sqrt : ℚ → ℚ) (bulletStart : Vec3) (zpos : Vec3) : ℚ :=
  let tx := zpos.x - bulletStart.x
  let ty := zpos.y - bulletStart.y
  let tz := zpos.z - bulletStart.z
  sqrt (tx * tx + ty * ty + tz * tz)

/-- `toZombie.normalize().dot(direction)` in `shootZombie`.
`THREE.Vector3.normalize` divides by `length() || 1`, so a zero-length vector
is left unchanged. -/
def shootAngleCos (sqrt : ℚ → ℚ) (bulletStart dir : Vec3) (zpos : Vec3) : ℚ :=
  let tx := zpos.x - bulletStart.x
  let ty := zpos.y - bulletStart.y
  let tz := zpos.z - bulletStart.z
  let len := shootDist sqrt bulletStart zpos
  let l := if len = 0 then 1 else len
  (tx / l) * dir.x + (ty / l) * dir.y + (tz / l) * dir.z

/-- The per-zombie filter of `shootZombie`'s target pipeline: alive, within
`weapon.range`, and inside the accuracy cone (`angleCos > weapon.accuracy`). -/
def shootQualifies (sqrt : ℚ → ℚ) (bulletStart dir : Vec3) (w : Weapon) (z : Zombie) : Bool :=
  z.isAlive && decide (shootDist sqrt bulletStart z.meshPos ≤ w.range)
    && decide (w.accuracy < shootAngleCos sqrt bulletStart dir z.meshPos)

/-- The `targetableZombies` pipeline of `shootZombie` before the sort: index
each zombie, keep the qualifying ones, and record each one's distance. -/
def targetable (sqrt : ℚ → ℚ) (bulletStart dir : Vec3) (w : Weapon)
    (zombies : List Zombie) : List (ℕ × ℚ) :=
  (zombies.enum.filter fun p => shootQualifies sqrt bulletStart dir w p.2).map
    fun p => (p.1, shootDist sqrt bulletStart p.2.meshPos)

/-- `sort((a, b) => a.distance - b.distance)` followed by taking element `[0]`:
JavaScript's sort is stable, so this selects the first entry of minimal
distance, computed here directly as a fold. -/
def pickNearest (entries : List (ℕ × ℚ)) : Option (ℕ × ℚ) :=
  entries.foldl
    (fun best e =>
      match best with
      | none => some e
      | some b => if e.2 < b.2 then some e else some b)
    none

/-- Target selection of `shootZombie`: the first minimal-distance element of
the qualifying entries, if any. -/
def selectTarget (sqrt : ℚ → ℚ) (bulletStart dir : Vec3) (w : Weapon)
    (zombies : List Zombie) : Option (ℕ × ℚ) :=
  pickNearest (targetable sqrt bulletStart dir w zombies)

/-- Apply `Zombie.takeDamage` to the zombie at one index, leaving every other
zombie untouched (the source mutates the single selected object). -/
def damageAt (now dmg : ℚ) : ℕ → List Zombie → List Zombie
  | _, [] => []
  | 0, z :: zs => Zombie.takeDamage z now (some dmg) :: zs
  | n + 1, z :: zs => z :: damageAt now dmg n zs

/-- `shootZombie` (canonical weapon-based variant of `GameEngine`): no-op when
the player is dead; otherwise filter the zombies to the firing cone, sort by
distance, and apply `weapon.damage` to the closest one.  `bulletStart` is
`player.getWeaponTipPosition()`, `dir` is `player.getForwardDirection()`;
score / kill bookkeeping and all audio-visual feedback are out of scope. -/
def shootZombie (sqrt : ℚ → ℚ) (playerAlive : Bool) (bulletStart dir : Vec3)
    (w : Weapon) (zombies : List Zombie) (now : ℚ) : List Zombie :=
  if playerAlive = false then zombies
  else
    match selectTarget sqrt bulletStart dir w zombies with
    | none => zombies
    | some (i, _) => damageAt now w.damage i zombies

/-- `private meleeCooldown: number = 1.5` (seconds between melee attacks). -/
def meleeCooldown : ℚ := 3/2

/-- `private meleeRange: number = 3`. -/
def meleeRange : ℚ := 3

/-- `private meleeKnockback: number = 20`. -/
def meleeKnockback : ℚ := 20

/-- The per-zombie test of `meleeAttack`: alive, ground-plane distance within
`meleeRange`, and in front of the player (`directionToZombie.dot(playerDir) >
0`; the zombie-to-player displacement here is `zombiePos - playerPos`, note
the opposite orientation to `Zombie.distSq`).  `THREE.Vector3.normalize`
divides by `length() || 1`.  The player's forward direction has no vertical
component in the dot product, so only `dirX`/`dirZ` matter. -/
def meleeQualifies (sqrt : ℚ → ℚ) (px pz dirX dirZ : ℚ) (z : Zombie) : Bool :=
  z.isAlive &&
    (let dx := z.x - px
     let dz := z.y - pz
     let distance := sqrt (dx * dx + dz * dz)
     decide (distance ≤ meleeRange) &&
       (let l := if distance = 0 then 1 else distance
        decide (0 < (dx / l) * dirX + (dz / l) * dirZ)))

/-- The body of `meleeAttack`'s second loop for one qualifying zombie: apply
the fixed 15 damage, then, when the recomputed distance is positive, the
ragdoll knockback along the normalized player-to-zombie direction. -/
def meleeApply (sqrt : ℚ → ℚ) (px pz currentTime : ℚ) (z : Zombie) : Zombie :=
  let z1 := Zombie.takeDamage z currentTime (some 15)
  let dx := z1.x - px
  let dz := z1.y - pz
  let distance := sqrt (dx * dx + dz * dz)
  if 0 < distance then
    z1.applyRagdollEffect currentTime (dx / distance) (dz / distance) meleeKnockback
  else z1

/-- `meleeAttack`: gated by the player being alive and by the 1.5-second
cooldown; when it fires it collects every qualifying zombie and applies
damage-plus-knockback to each of them, and records the attack time.  Returns
the updated zombie list and the updated `lastMeleeTime`.  (Collect-then-apply
in the source equals a single pass because each zombie is modified
independently.) -/
def meleeAttack (sqrt : ℚ → ℚ) (playerAlive : Bool) (currentTime lastMeleeTime : ℚ)
    (px pz dirX dirZ : ℚ) (zombies : List Zombie) : List Zombie × ℚ :=
  if playerAlive = false then (zombies, lastMeleeTime)
  else if currentTime - lastMeleeTime < meleeCooldown then (zombies, lastMeleeTime)
  else
    (zombies.map fun z =>
        if meleeQualifies sqrt px pz dirX dirZ z then meleeApply sqrt px pz currentTime z
        else z,
      currentTime)

/-- `private difficultyScalingFactor: number = 0.92`. -/
def difficultyScalingFactor : ℚ := 92/100

/-- `private minSpawnRate: number = 0.3` — the spawn-interval floor. -/
def minSpawnRate : ℚ := 3/10

/-- `private initialZombieSpawnRate: number = 5` — the starting interval. -/
def initialZombieSpawnRate : ℚ := 5

/-- The wave / difficulty state touched by `increaseDifficulty`. -/
structure WaveState where
  waveNumber : ℕ := 1
  zombieSpawnRate : ℚ := initialZombieSpawnRate
deriving DecidableEq

/-- `increaseDifficulty` (canonical variant): no-op when the player is dead;
otherwise increment the wave counter and set the spawn interval to
`max(minSpawnRate, zombieSpawnRate * difficultyScalingFactor)`.  The staggered
batch spawn and the per-zombie speed/health scaling act on the zombie
collection, not on this state, and are out of scope here. -/
def increaseDifficulty (playerAlive : Bool) (w : WaveState) : WaveState :=
  if playerAlive = false then w
  else
    { waveNumber := w.waveNumber + 1,
      zombieSpawnRate := max minSpawnRate (w.zombieSpawnRate * difficultyScalingFactor) }

/-- A sequence of wave escalations: fold `increaseDifficulty` over the list of
player-alive flags observed at each escalation tick. -/
def runWaves (flags : List Bool) (w : WaveState) : WaveState :=
  flags.foldl (fun s b => increaseDifficulty b s) w

/-- `private maxZombies: number = 200` — the documented value of the enemy
cap.  The spawn functions below take the cap as an explicit parameter so the
theorems can quantify over it; the game always passes this value. -/
def maxZombies : ℕ := 200

/-- Ground-plane distance from the player to a zombie as computed by
`removeOldestDistantZombie` / `findSafeSpawnLocation` (`zombiePos - playerPos`
order), via the sqrt oracle. -/
def Zombie.distTo (sqrt : ℚ → ℚ) (px pz : ℚ) (z : Zombie) : ℚ :=
  let dx := z.x - px
  let dz := z.y - pz
  sqrt (dx * dx + dz * dz)

/-- The scan loop of `removeOldestDistantZombie`: start from
`furthestZombie = zombies[0]`, `maxDistance = 0`; skip dead zombies; take a
new best on strictly greater distance.  `i` is the index of the head of the
remaining list; returns `(index of furthest, maxDistance)`. -/
def furthestScan (sqrt : ℚ → ℚ) (px pz : ℚ) : List Zombie → ℕ → ℕ × ℚ → ℕ × ℚ
  | [], _, best => best
  | z :: zs, i, best =>
      let best' :=
        if z.isAlive ∧ best.2 < Zombie.distTo sqrt px pz z
        then (i, Zombie.distTo sqrt px pz z)
        else best
      furthestScan sqrt px pz zs (i + 1) best'

/-- `removeOldestDistantZombie`: nothing to do on an empty collection;
otherwise remove the zombie found by the scan (the source removes the scanned
object via `indexOf` + `splice`). -/
def removeOldestDistantZombie (sqrt : ℚ → ℚ) (px pz : ℚ) (zombies : List Zombie) :
    List Zombie :=
  if zombies.isEmpty then zombies
  else zombies.eraseIdx (furthestScan sqrt px pz zombies 0 (0, 0)).1

/-- `spawnZombie` (canonical variant): no-op when the player is dead; if the
collection is at (or above) the cap, evict via `removeOldestDistantZombie`;
then push the newly constructed zombie (`spawnZombieAt`).  The new zombie's
random edge-of-map position is abstracted into the `newZombie` argument. -/
def spawnZombie (sqrt : ℚ → ℚ) (px pz : ℚ) (playerAlive : Bool) (cap : ℕ)
    (zombies : List Zombie) (newZombie : Zombie) : List Zombie :=
  if playerAlive = false then zombies
  else
    let zs :=
      if cap ≤ zombies.length then removeOldestDistantZombie sqrt px pz zombies
      else zombies
    zs ++ [newZombie]

/-- `const safeDistance = 20` in `findSafeSpawnLocation`. -/
def safeDistance : ℚ := 20

/-- `const maxAttempts = 20` in `findSafeSpawnLocation` — the number of random
candidates tried before falling back. -/
def maxAttempts : ℕ := 20

/-- The inner loop of `findSafeSpawnLocation` for one candidate `(x, z)`:
safe iff no living zombie is strictly closer than `safeDistance`. -/
def isSafeLocation (sqrt : ℚ → ℚ) (x z : ℚ) (zombies : List Zombie) : Bool :=
  zombies.all fun zo =>
    !zo.isAlive ||
      decide (¬ sqrt ((x - zo.x) * (x - zo.x) + (z - zo.y) * (z - zo.y)) < safeDistance)

/-- `findSafeSpawnLocation`: try the random candidates in order (the source
draws `maxAttempts = 20` of them, each at radius 30–50) and return the first
safe one; if none is safe, return the fallback point (a fresh random angle at
radius 40).  The pre-drawn random candidates and the fallback are the
`attempts` / `fallback` arguments. -/
def findSafeSpawnLocation (sqrt : ℚ → ℚ) (attempts : List (ℚ × ℚ))
    (fallback : ℚ × ℚ) (zombies : List Zombie) : ℚ × ℚ :=
  match attempts.find? (fun c => isSafeLocation sqrt c.1 c.2 zombies) with
  | some c => c
  | none => fallback

/-- The squared length of the tentative displacement `newDx*newDx +
newDz*newDz` that `Zombie.chase` feeds through `Math.sqrt` to obtain
`newDistance`, written as a standalone definition so theorems can state oracle
hypotheses about it. -/
def Zombie.chaseNewSq (z : Zombie) (deltaTime px pz distance : ℚ) : ℚ :=
  let dx := px - z.x
  let dz := pz - z.y
  let newX := z.x + dx / distance * z.chaseSpeed distance * deltaTime
  let newY := z.y + dz / distance * z.chaseSpeed distance * deltaTime
  (px - newX) * (px - newX) + (pz - newY) * (pz - newY)

/-- `Zombie.update` only moves the zombie and advances animation / ragdoll
bookkeeping; it never writes `health`, `maxHealth` or `isAlive`. -/
theorem Zombie.update_preserves_vitals (sqrt : ℚ → ℚ) (z : Zombie)
    (deltaTime px pz currentTime randX randZ : ℚ) :
    (z.update sqrt deltaTime px pz currentTime randX randZ).health = z.health ∧
    (z.update sqrt deltaTime px pz currentTime randX randZ).maxHealth = z.maxHealth ∧
    (z.update sqrt deltaTime px pz currentTime randX randZ).isAlive = z.isAlive := by
  unfold Zombie.update Zombie.ragdollStep Zombie.recoverFromRagdoll Zombie.chase Zombie.wander
  dsimp only
  split_ifs <;> simp

/-- C2: a lethal hit (damage at least the current health) zeroes health and
clears `isAlive` in one call, for the player and for a zombie, and `takeDamage`
on an already-dead actor is a complete no-op, so a second application after
death changes nothing. -/
theorem lethal_damage_clamps_and_death_absorbs :
    (∀ (p : Player) (d : ℚ), p.isAlive = true → p.health ≤ d →
      (p.takeDamage d).health = 0 ∧ (p.takeDamage d).isAlive = false) ∧
    (∀ (p : Player) (d : ℚ), p.isAlive = false → p.takeDamage d = p) ∧
    (∀ (z : Zombie) (now d : ℚ), z.isAlive = true → 0 < d → z.health ≤ d →
      (z.takeDamage now (some d)).health = 0 ∧
      (z.takeDamage now (some d)).isAlive = false ∧
      (z.takeDamage now (some d)).deathTime = some now) ∧
    (∀ (z : Zombie) (now : ℚ) (d : Option ℚ), z.isAlive = false →
      z.takeDamage now d = z) := by
  refine ⟨?_, ?_, ?_, ?_⟩
  · intro p d hA hd
    simp only [Player.takeDamage, hA]
    rw [if_neg (by simp), if_pos (by linarith)]
    simp
  · intro p d hA
    simp [Player.takeDamage, hA]
  · intro z now d hA hpos hd
    have habs : |d| = d := abs_of_pos hpos
    simp only [Zombie.takeDamage, hA, habs]
    rw [if_neg (by simp), if_neg (by positivity), if_pos (by simp; linarith)]
    simp
  · intro z now d hA
    simp [Zombie.takeDamage, hA]

/-- Witness for C2, the spec scenario: health 10, damage 25 → health 0 and
dead; the second application of the same damage is a no-op. -/
theorem lethal_damage_clamps_and_death_absorbs_witness :
    (({ health := 10 : Player }).takeDamage 25).health = 0 ∧
    (({ health := 10 : Player }).takeDamage 25).isAlive = false ∧
    (({ health := 10 : Player }).takeDamage 25).takeDamage 25 =
      ({ health := 10 : Player }).takeDamage 25 ∧
    (({ x := 0, y := 0, health := 10 : Zombie }).takeDamage 7 (some 25)).health = 0 ∧
    (({ x := 0, y := 0, health := 10 : Zombie }).takeDamage 7 (some 25)).isAlive = false ∧
    (({ x := 0, y := 0, health := 10 : Zombie }).takeDamage 7 (some 25)).takeDamage 8 (some 25) =
      ({ x := 0, y := 0, health := 10 : Zombie }).takeDamage 7 (some 25) := by
  refine ⟨(lethal_damage_clamps_and_death_absorbs.1 _ 25 rfl (by norm_num)).1,
    (lethal_damage_clamps_and_death_absorbs.1 _ 25 rfl (by norm_num)).2,
    lethal_damage_clamps_and_death_absorbs.2.1 _ 25
      (lethal_damage_clamps_and_death_absorbs.1 _ 25 rfl (by norm_num)).2,
    (lethal_damage_clamps_and_death_absorbs.2.2.1 _ 7 25 rfl (by norm_num) (by norm_num)).1,
    (lethal_damage_clamps_and_death_absorbs.2.2.1 _ 7 25 rfl (by norm_num) (by norm_num)).2.1,
    lethal_damage_clamps_and_death_absorbs.2.2.2 _ 8 (some 25)
      (lethal_damage_clamps_and_death_absorbs.2.2.1 _ 7 25 rfl (by norm_num) (by norm_num)).2.1⟩

/-- C3: the actor invariant — health in `[0, maxHealth]` and `isAlive` false
iff health is 0 — is preserved by every modelled actor operation:
`Player.takeDamage` and `Player.heal` (for the nonnegative amounts the game
passes; every call site uses a positive literal or a zombie's positive attack
damage), `Player.revive` (the player's `maxHealth` is the positive constant
100), `Zombie.takeDamage` (for every amount — it sanitizes its own argument),
and `Zombie.update` (which never writes the vital fields; `Player.update`
likewise only steers and animates, touching no vital field, so it is not
modelled separately). -/
theorem actor_invariant_preserved :
    (∀ (p : Player) (a : ℚ), 0 ≤ a → p.inv → (p.takeDamage a).inv) ∧
    (∀ (p : Player) (a : ℚ), 0 ≤ a → p.inv → (p.heal a).inv) ∧
    (∀ p : Player, 0 < p.maxHealth → p.revive.inv) ∧
    (∀ (z : Zombie) (now : ℚ) (d : Option ℚ), z.inv → (z.takeDamage now d).inv) ∧
    (∀ (sqrt : ℚ → ℚ) (z : Zombie) (deltaTime px pz currentTime randX randZ : ℚ),
      z.inv → (z.update sqrt deltaTime px pz currentTime randX randZ).inv) := by
  refine ⟨?_, ?_, ?_, ?_, ?_⟩
  · intro p a ha hinv
    obtain ⟨h0, hm, hiff⟩ := hinv
    unfold Player.takeDamage
    dsimp only
    split_ifs with hdead hle
    · exact ⟨h0, hm, hiff⟩
    · unfold Player.inv
      refine ⟨?_, ?_, ?_⟩ <;> simp
      linarith
    · have hAlive : p.isAlive = true := by
        cases h : p.isAlive
        · exact absurd h hdead
        · rfl
      unfold Player.inv
      refine ⟨?_, ?_, ?_⟩ <;> simp [hAlive]
      · linarith
      · linarith
      · intro h; linarith
  · intro p a ha hinv
    obtain ⟨h0, hm, hiff⟩ := hinv
    unfold Player.heal
    split_ifs with hdead
    · exact ⟨h0, hm, hiff⟩
    · have hAlive : p.isAlive = true := by
        cases h : p.isAlive
        · exact absurd h hdead
        · rfl
      have hpos : 0 < p.health := by
        rcases lt_or_eq_of_le h0 with h | h
        · exact h
        · exfalso
          have := hiff.2 h.symm
          rw [hAlive] at this
          exact Bool.noConfusion this
      unfold Player.inv
      refine ⟨?_, ?_, ?_⟩ <;> simp [hAlive]
      · constructor <;> linarith
      · intro h
        rcases min_choice (p.health + a) p.maxHealth with hc | hc <;> rw [hc] at h <;> linarith
  · intro p hmax
    unfold Player.revive Player.inv
    refine ⟨?_, ?_, ?_⟩ <;> simp
    · linarith
    · linarith
  · intro z now d hinv
    obtain ⟨h0, hm, hiff⟩ := hinv
    unfold Zombie.takeDamage
    dsimp only
    generalize hdm : (match d with | none => (0:ℚ) | some a => |a|) = dmg
    have habs0 : (0:ℚ) ≤ dmg := by
      rw [← hdm]
      cases d
      · exact le_refl 0
      · exact abs_nonneg _
    split_ifs with hdead hzero hle
    · exact ⟨h0, hm, hiff⟩
    · exact ⟨h0, hm, hiff⟩
    · unfold Zombie.inv
      dsimp only
      exact ⟨le_refl 0, le_trans h0 hm, by norm_num⟩
    · have hAlive : z.isAlive = true := by
        cases h : z.isAlive
        · exact absurd h hdead
        · rfl
      have hgt : 0 < max 0 (z.health - dmg) := lt_of_not_le hle
      unfold Zombie.inv
      dsimp only
      refine ⟨le_max_left _ _, max_le (le_trans h0 hm) (by linarith), ?_⟩
      rw [hAlive]
      constructor
      · intro h
        exact Bool.noConfusion h
      · intro h
        rw [h] at hgt
        exact absurd hgt (lt_irrefl 0)
  · intro sqrt z deltaTime px pz currentTime randX randZ hinv
    obtain ⟨h0, hm, hiff⟩ := hinv
    obtain ⟨hh, hmx, ha⟩ :=
      Zombie.update_preserves_vitals sqrt z deltaTime px pz currentTime randX randZ
    exact ⟨hh ▸ h0, by rw [hh, hmx]; exact hm, by rw [hh, ha]; exact hiff⟩

/-- Witness for C3: each clause applied at a concrete state — the default
player (health 100/100, alive) damaged by 30, healed by 30, revived, and the
default zombie (health 50/50, alive) damaged by 20 and updated one frame at
position (3, 4) with the identity sqrt oracle. -/
theorem actor_invariant_preserved_witness :
    (({ } : Player).takeDamage 30).inv ∧
    (({ } : Player).heal 30).inv ∧
    ({ } : Player).revive.inv ∧
    (({ x := 3, y := 4 } : Zombie).takeDamage 1 (some 20)).inv ∧
    (({ x := 3, y := 4 } : Zombie).update (fun q => q) 1 0 0 0 (1/2) (1/2)).inv := by
  refine ⟨actor_invariant_preserved.1 _ 30 (by norm_num) ?_,
    actor_invariant_preserved.2.1 _ 30 (by norm_num) ?_,
    actor_invariant_preserved.2.2.1 _ (by norm_num),
    actor_invariant_preserved.2.2.2.1 _ 1 (some 20) ?_,
    actor_invariant_preserved.2.2.2.2 _ _ 1 0 0 0 (1/2) (1/2) ?_⟩ <;>
  · exact ⟨by norm_num, by norm_num, by simp⟩

/-- C10: `Zombie.takeDamage` sanitizes its argument through
`Math.abs(Number(amount)) || 0`: an argument whose numeric coercion is `NaN`
(the `none` case) or `0` is a complete no-op on the whole state; the applied
amount is the absolute value, so damage can never increase health, and a
strictly negative amount still strictly reduces a living zombie's positive
health, landing on `max 0 (health - |amount|)`. -/
theorem zombie_damage_sanitized :
    (∀ (z : Zombie) (now : ℚ), z.takeDamage now none = z) ∧
    (∀ (z : Zombie) (now : ℚ), z.takeDamage now (some 0) = z) ∧
    (∀ (z : Zombie) (now : ℚ) (d : Option ℚ), 0 ≤ z.health →
      (z.takeDamage now d).health ≤ z.health) ∧
    (∀ (z : Zombie) (now a : ℚ), a < 0 → z.isAlive = true → 0 < z.health →
      (z.takeDamage now (some a)).health = max 0 (z.health - |a|) ∧
      (z.takeDamage now (some a)).health < z.health) := by
  refine ⟨?_, ?_, ?_, ?_⟩
  · intro z now
    simp [Zombie.takeDamage]
  · intro z now
    simp [Zombie.takeDamage]
  · intro z now d h0
    unfold Zombie.takeDamage
    dsimp only
    generalize hdm : (match d with | none => (0:ℚ) | some a => |a|) = dmg
    have habs0 : (0:ℚ) ≤ dmg := by
      rw [← hdm]
      cases d
      · exact le_refl 0
      · exact abs_nonneg _
    split_ifs with hdead hzero hle
    · exact le_refl _
    · exact le_refl _
    · exact h0
    · exact max_le h0 (by linarith)
  · intro z now a hneg hAlive hpos
    have habs : 0 < |a| := abs_pos.mpr (ne_of_lt hneg)
    unfold Zombie.takeDamage
    dsimp only
    split_ifs with hdead hzero hle
    · exact absurd hAlive (by rw [hdead]; exact fun h => Bool.noConfusion h)
    · exact absurd hzero (ne_of_gt habs)
    · have hmax0 : (0:ℚ) ⊔ (z.health - |a|) = 0 := le_antisymm hle (le_max_left _ _)
      constructor
      · dsimp only
        rw [hmax0]
      · dsimp only
        exact hpos
    · constructor
      · rfl
      · dsimp only
        have hgt := lt_of_not_le hle
        rcases max_cases (0:ℚ) (z.health - |a|) with ⟨he, _⟩ | ⟨he, _⟩ <;> rw [he] <;> linarith

/-- Witness for C10 at a concrete zombie (health 50, alive): a `NaN`-coercing
amount and amount 0 are no-ops, and damage -30 drops health to 20 = max 0
(50 - 30), strictly below 50. -/
theorem zombie_damage_sanitized_witness :
    ({ x := 1, y := 2 } : Zombie).takeDamage 9 none = { x := 1, y := 2 } ∧
    ({ x := 1, y := 2 } : Zombie).takeDamage 9 (some 0) = { x := 1, y := 2 } ∧
    (({ x := 1, y := 2 } : Zombie).takeDamage 9 (some (-30))).health ≤ 50 ∧
    (({ x := 1, y := 2 } : Zombie).takeDamage 9 (some (-30))).health = max 0 (50 - |(-30 : ℚ)|) ∧
    (({ x := 1, y := 2 } : Zombie).takeDamage 9 (some (-30))).health < 50 := by
  refine ⟨zombie_damage_sanitized.1 _ 9, zombie_damage_sanitized.2.1 _ 9,
    zombie_damage_sanitized.2.2.1 _ 9 (some (-30)) (by norm_num),
    (zombie_damage_sanitized.2.2.2 _ 9 (-30) (by norm_num) rfl (by norm_num)).1,
    (zombie_damage_sanitized.2.2.2 _ 9 (-30) (by norm_num) rfl (by norm_num)).2⟩

/-- C4: across any sequence of wave escalations (with the player alive or
dead at each tick), the spawn interval never increases and never drops below
the `minSpawnRate` floor, provided it starts at or above the floor (the
initial interval is 5 ≥ 0.3). -/
theorem wave_escalation_monotone_bounded (flags : List Bool) (w : WaveState)
    (hfloor : minSpawnRate ≤ w.zombieSpawnRate) :
    minSpawnRate ≤ (runWaves flags w).zombieSpawnRate ∧
    (runWaves flags w).zombieSpawnRate ≤ w.zombieSpawnRate := by
  induction flags generalizing w with
  | nil => exact ⟨hfloor, le_refl _⟩
  | cons b bs ih =>
    have hstep : minSpawnRate ≤ (increaseDifficulty b w).zombieSpawnRate ∧
        (increaseDifficulty b w).zombieSpawnRate ≤ w.zombieSpawnRate := by
      unfold increaseDifficulty
      split_ifs
      · exact ⟨hfloor, le_refl _⟩
      · refine ⟨le_max_left _ _, max_le hfloor ?_⟩
        have hpos : (0:ℚ) < w.zombieSpawnRate :=
          lt_of_lt_of_le (by norm_num [minSpawnRate]) hfloor
        calc w.zombieSpawnRate * difficultyScalingFactor
            ≤ w.zombieSpawnRate * 1 := by
              refine mul_le_mul_of_nonneg_left ?_ (le_of_lt hpos)
              norm_num [difficultyScalingFactor]
          _ = w.zombieSpawnRate := mul_one _
    have hrec := ih (increaseDifficulty b w) hstep.1
    have hfold : runWaves (b :: bs) w = runWaves bs (increaseDifficulty b w) := rfl
    rw [hfold]
    exact ⟨hrec.1, le_trans hrec.2 hstep.2⟩

/-- Witness for C4: two escalation ticks from the initial state (interval 5)
stay within the floor and never increase the interval. -/
theorem wave_escalation_monotone_bounded_witness :
    minSpawnRate ≤ (runWaves [true, true] { }).zombieSpawnRate ∧
    (runWaves [true, true] { }).zombieSpawnRate ≤ ({ } : WaveState).zombieSpawnRate :=
  wave_escalation_monotone_bounded [true, true] { }
    (by norm_num [minSpawnRate, initialZombieSpawnRate])

/-- C8: a (non-ragdolled) zombie whose distance to the player exceeds the
detection radius takes the wander path: its per-frame position delta is
exactly the small random wander jitter, never the pursuit integration.  (While
ragdolled, all steering — pursuit and wander alike — is suspended in favour of
the scripted knockback animation, per the ragdoll sub-state.) -/
theorem far_enemy_wanders (sqrt : ℚ → ℚ) (z : Zombie)
    (deltaTime px pz currentTime randX randZ : ℚ)
    (hrag : z.isRagdolled = false)
    (hfar : Zombie.detectionRange < sqrt (z.distSq px pz)) :
    z.update sqrt deltaTime px pz currentTime randX randZ =
      Zombie.wander { z with animationTime := z.animationTime + deltaTime }
        deltaTime randX randZ ∧
    (z.update sqrt deltaTime px pz currentTime randX randZ).x =
      z.x + (randX - 1/2) * (1/2) * deltaTime ∧
    (z.update sqrt deltaTime px pz currentTime randX randZ).y =
      z.y + (randZ - 1/2) * (1/2) * deltaTime := by
  have hmain : z.update sqrt deltaTime px pz currentTime randX randZ =
      Zombie.wander { z with animationTime := z.animationTime + deltaTime }
        deltaTime randX randZ := by
    unfold Zombie.update
    dsimp only
    have h1 : ¬ (({ z with animationTime := z.animationTime + deltaTime } : Zombie).isRagdolled
        = true) := by
      show ¬ (z.isRagdolled = true)
      rw [hrag]
      exact fun h => Bool.noConfusion h
    rw [if_neg h1]
    have h2 : ¬ (sqrt (Zombie.distSq { z with animationTime := z.animationTime + deltaTime }
        px pz) ≤ Zombie.detectionRange) := by
      show ¬ (sqrt (z.distSq px pz) ≤ Zombie.detectionRange)
      exact not_le_of_lt hfar
    rw [if_neg h2]
  refine ⟨hmain, ?_, ?_⟩ <;> rw [hmain] <;> rfl

/-- Witness for C8: a zombie at (100, 0) with the player at the origin is at
distance 100 > 50; one update frame moves it exactly by the wander jitter. -/
theorem far_enemy_wanders_witness :
    (({ x := 100, y := 0 } : Zombie).update
        (fun q => if q = 10000 then 100 else 0) 2 0 0 7 (3/4) (1/4)).x =
      100 + (3/4 - 1/2) * (1/2) * 2 ∧
    (({ x := 100, y := 0 } : Zombie).update
        (fun q => if q = 10000 then 100 else 0) 2 0 0 7 (3/4) (1/4)).y =
      0 + (1/4 - 1/2) * (1/2) * 2 :=
  ⟨(far_enemy_wanders (fun q => if q = 10000 then 100 else 0) { x := 100, y := 0 }
      2 0 0 7 (3/4) (1/4) rfl
      (by norm_num [Zombie.distSq, Zombie.detectionRange])).2.1,
   (far_enemy_wanders (fun q => if q = 10000 then 100 else 0) { x := 100, y := 0 }
      2 0 0 7 (3/4) (1/4) rfl
      (by norm_num [Zombie.distSq, Zombie.detectionRange])).2.2⟩

/-- `isSafeLocation` decides exactly "every living zombie is at computed
distance at least `safeDistance` from the candidate". -/
theorem isSafeLocation_iff (sqrt : ℚ → ℚ) (x z : ℚ) (zombies : List Zombie) :
    isSafeLocation sqrt x z zombies = true ↔
      ∀ zo ∈ zombies, zo.isAlive = true →
        safeDistance ≤ sqrt ((x - zo.x) * (x - zo.x) + (z - zo.y) * (z - zo.y)) := by
  unfold isSafeLocation
  rw [List.all_eq_true]
  constructor
  · intro h zo hmem halive
    have := h zo hmem
    rw [Bool.or_eq_true, Bool.not_eq_true', halive] at this
    rcases this with h1 | h2
    · exact Bool.noConfusion h1
    · exact not_lt.mp (of_decide_eq_true h2)
  · intro h zo hmem
    rw [Bool.or_eq_true, Bool.not_eq_true']
    cases halive : zo.isAlive
    · exact Or.inl rfl
    · exact Or.inr (decide_eq_true (not_lt.mpr (h zo hmem halive)))

/-- C5: the respawn location is the fallback point exactly when none of the
bounded list of random candidates is safe; otherwise it is one of the
candidates, and it is safe — its computed distance to every living zombie is
at least `safeDistance`. -/
theorem respawn_location_safe_or_fallback (sqrt : ℚ → ℚ) (attempts : List (ℚ × ℚ))
    (fallback : ℚ × ℚ) (zombies : List Zombie) :
    ((∀ c ∈ attempts, isSafeLocation sqrt c.1 c.2 zombies = false) →
      findSafeSpawnLocation sqrt attempts fallback zombies = fallback) ∧
    ((∃ c ∈ attempts, isSafeLocation sqrt c.1 c.2 zombies = true) →
      findSafeSpawnLocation sqrt attempts fallback zombies ∈ attempts ∧
      ∀ zo ∈ zombies, zo.isAlive = true →
        safeDistance ≤ sqrt
          (((findSafeSpawnLocation sqrt attempts fallback zombies).1 - zo.x) *
             ((findSafeSpawnLocation sqrt attempts fallback zombies).1 - zo.x) +
           ((findSafeSpawnLocation sqrt attempts fallback zombies).2 - zo.y) *
             ((findSafeSpawnLocation sqrt attempts fallback zombies).2 - zo.y))) := by
  constructor
  · intro hall
    have hnone : attempts.find? (fun c => isSafeLocation sqrt c.1 c.2 zombies) = none := by
      refine List.find?_eq_none.mpr ?_
      intro c hc h
      rw [hall c hc] at h
      exact Bool.noConfusion h
    unfold findSafeSpawnLocation
    rw [hnone]
  · intro hex
    obtain ⟨c0, hc0mem, hc0safe⟩ := hex
    cases hfind : attempts.find? (fun c => isSafeLocation sqrt c.1 c.2 zombies) with
    | none =>
      exact absurd hc0safe (by simpa using List.find?_eq_none.mp hfind c0 hc0mem)
    | some c =>
      unfold findSafeSpawnLocation
      rw [hfind]
      refine ⟨List.mem_of_find?_eq_some hfind, ?_⟩
      have hsafe := List.find?_some hfind
      exact (isSafeLocation_iff sqrt c.1 c.2 zombies).mp hsafe

/-- Witness for C5, both clauses at concrete inputs with one living zombie at
(10, 0): when the only candidate (5, 0) is unsafe (distance 5 < 20) the
fallback (99, 99) is returned; when the candidates are (5, 0) and (40, 0),
the safe candidate (40, 0) (distance 30 ≥ 20) exists, and the returned point
is a candidate that keeps every living zombie at distance ≥ 20. -/
theorem respawn_location_safe_or_fallback_witness :
    findSafeSpawnLocation (fun q => if q = 25 then 5 else if q = 900 then 30 else 0)
        [(5, 0)] (99, 99) [{ x := 10, y := 0 }] = (99, 99) ∧
    (findSafeSpawnLocation (fun q => if q = 25 then 5 else if q = 900 then 30 else 0)
        [(5, 0), (40, 0)] (99, 99) [{ x := 10, y := 0 }] ∈ [((5:ℚ), (0:ℚ)), (40, 0)] ∧
     ∀ zo ∈ [({ x := 10, y := 0 } : Zombie)], zo.isAlive = true →
       safeDistance ≤ (fun q => if q = 25 then 5 else if q = 900 then 30 else 0)
         (((findSafeSpawnLocation (fun q => if q = 25 then 5 else if q = 900 then 30 else 0)
              [(5, 0), (40, 0)] (99, 99) [{ x := 10, y := 0 }]).1 - zo.x) *
            ((findSafeSpawnLocation (fun q => if q = 25 then 5 else if q = 900 then 30 else 0)
              [(5, 0), (40, 0)] (99, 99) [{ x := 10, y := 0 }]).1 - zo.x) +
          ((findSafeSpawnLocation (fun q => if q = 25 then 5 else if q = 900 then 30 else 0)
              [(5, 0), (40, 0)] (99, 99) [{ x := 10, y := 0 }]).2 - zo.y) *
            ((findSafeSpawnLocation (fun q => if q = 25 then 5 else if q = 900 then 30 else 0)
              [(5, 0), (40, 0)] (99, 99) [{ x := 10, y := 0 }]).2 - zo.y))) :=
  ⟨(respawn_location_safe_or_fallback _ [(5, 0)] (99, 99) [{ x := 10, y := 0 }]).1
      (by
        intro c hc
        rw [List.mem_singleton] at hc
        subst hc
        norm_num [isSafeLocation, safeDistance]),
   (respawn_location_safe_or_fallback _ [(5, 0), (40, 0)] (99, 99) [{ x := 10, y := 0 }]).2
      ⟨(40, 0), by norm_num, by norm_num [isSafeLocation, safeDistance]⟩⟩

/-- `Zombie.takeDamage` never moves the zombie. -/
theorem Zombie.takeDamage_preserves_position (z : Zombie) (now : ℚ) (amount : Option ℚ) :
    (z.takeDamage now amount).x = z.x ∧ (z.takeDamage now amount).y = z.y := by
  unfold Zombie.takeDamage
  dsimp only
  split_ifs <;> exact ⟨rfl, rfl⟩

/-- `applyRagdollEffect` never changes health. -/
theorem Zombie.applyRagdollEffect_health (z : Zombie) (ct kx kz f : ℚ) :
    (z.applyRagdollEffect ct kx kz f).health = z.health := rfl

/-- On a living zombie, `takeDamage` with the positive literal 15 (the melee
damage) lands exactly on `max 0 (health - 15)`. -/
theorem Zombie.takeDamage_melee_health (z : Zombie) (now : ℚ) (halive : z.isAlive = true) :
    (z.takeDamage now (some 15)).health = max 0 (z.health - 15) := by
  unfold Zombie.takeDamage
  dsimp only
  rw [if_neg (by rw [halive]; exact fun h => Bool.noConfusion h)]
  rw [show |(15:ℚ)| = 15 from abs_of_pos (by norm_num)]
  rw [if_neg (by norm_num)]
  split_ifs with hle
  · exact (le_antisymm hle (le_max_left _ _)).symm
  · rfl

/-- Unpacking `meleeQualifies`: the zombie is alive, within `meleeRange`, and
strictly in front of the player. -/
theorem meleeQualifies_spec (sqrt : ℚ → ℚ) (px pz dirX dirZ : ℚ) (z : Zombie)
    (hq : meleeQualifies sqrt px pz dirX dirZ z = true) :
    z.isAlive = true ∧
    sqrt ((z.x - px) * (z.x - px) + (z.y - pz) * (z.y - pz)) ≤ meleeRange ∧
    0 < (z.x - px) /
          (if sqrt ((z.x - px) * (z.x - px) + (z.y - pz) * (z.y - pz)) = 0 then 1
           else sqrt ((z.x - px) * (z.x - px) + (z.y - pz) * (z.y - pz))) * dirX +
        (z.y - pz) /
          (if sqrt ((z.x - px) * (z.x - px) + (z.y - pz) * (z.y - pz)) = 0 then 1
           else sqrt ((z.x - px) * (z.x - px) + (z.y - pz) * (z.y - pz))) * dirZ := by
  unfold meleeQualifies at hq
  dsimp only at hq
  rw [Bool.and_eq_true, Bool.and_eq_true, decide_eq_true_eq, decide_eq_true_eq] at hq
  exact ⟨hq.1, hq.2.1, hq.2.2⟩

/-- A qualifying zombie is at strictly positive squared distance: being
strictly in front of the player forces a nonzero ground displacement. -/
theorem meleeQualifies_posDistSq (sqrt : ℚ → ℚ) (px pz dirX dirZ : ℚ) (z : Zombie)
    (hq : meleeQualifies sqrt px pz dirX dirZ z = true) :
    0 < (z.x - px) * (z.x - px) + (z.y - pz) * (z.y - pz) := by
  obtain ⟨-, -, hdot⟩ := meleeQualifies_spec sqrt px pz dirX dirZ z hq
  by_contra hns
  have hs0 : (z.x - px) * (z.x - px) + (z.y - pz) * (z.y - pz) = 0 := by
    have := not_lt.mp hns
    nlinarith [mul_self_nonneg (z.x - px), mul_self_nonneg (z.y - pz)]
  have hx0 : z.x - px = 0 := by nlinarith [mul_self_nonneg (z.x - px), mul_self_nonneg (z.y - pz)]
  have hy0 : z.y - pz = 0 := by nlinarith [mul_self_nonneg (z.x - px), mul_self_nonneg (z.y - pz)]
  rw [hx0, hy0] at hdot
  simp at hdot

/-- When the ground distance oracle is positive at the zombie's offset,
`meleeApply` leaves the zombie ragdolled. -/
theorem meleeApply_ragdolled (sqrt : ℚ → ℚ) (px pz ct : ℚ) (z : Zombie)
    (hs : 0 < sqrt ((z.x - px) * (z.x - px) + (z.y - pz) * (z.y - pz))) :
    (meleeApply sqrt px pz ct z).isRagdolled = true := by
  unfold meleeApply
  dsimp only
  obtain ⟨hx, hy⟩ := Zombie.takeDamage_preserves_position z ct (some 15)
  rw [hx, hy, if_pos hs]
  rfl

/-- `meleeApply` on a living zombie drops health to `max 0 (health - 15)`. -/
theorem meleeApply_health (sqrt : ℚ → ℚ) (px pz ct : ℚ) (z : Zombie)
    (halive : z.isAlive = true) :
    (meleeApply sqrt px pz ct z).health = max 0 (z.health - 15) := by
  unfold meleeApply
  dsimp only
  split_ifs with h
  · rw [Zombie.applyRagdollEffect_health]
    exact Zombie.takeDamage_melee_health z ct halive
  · exact Zombie.takeDamage_melee_health z ct halive

/-- C6: `meleeAttack` is a complete no-op on the zombies while the player is
dead or while the 1.5 s cooldown has not elapsed; when it fires, it stamps the
attack time and hits **all** qualifying zombies (alive, within `meleeRange`,
in front of the player) simultaneously — each takes the fixed smaller damage
15 (health drops to `max 0 (health - 15)`) and enters the ragdoll knockback
state — while every non-qualifying zombie is untouched.  The oracle hypothesis
`hpos` (positive inputs have positive square roots) holds of the exact
`Math.sqrt`. -/
theorem melee_hits_all_in_cone_or_noop (sqrt : ℚ → ℚ) (playerAlive : Bool)
    (currentTime lastMeleeTime px pz dirX dirZ : ℚ) (zombies : List Zombie) :
    (playerAlive = false →
      meleeAttack sqrt playerAlive currentTime lastMeleeTime px pz dirX dirZ zombies =
        (zombies, lastMeleeTime)) ∧
    (currentTime - lastMeleeTime < meleeCooldown →
      meleeAttack sqrt playerAlive currentTime lastMeleeTime px pz dirX dirZ zombies =
        (zombies, lastMeleeTime)) ∧
    (playerAlive = true → meleeCooldown ≤ currentTime - lastMeleeTime →
      (∀ s : ℚ, 0 < s → 0 < sqrt s) →
      (meleeAttack sqrt playerAlive currentTime lastMeleeTime px pz dirX dirZ zombies).2 =
        currentTime ∧
      (meleeAttack sqrt playerAlive currentTime lastMeleeTime px pz dirX dirZ
          zombies).1.length = zombies.length ∧
      ∀ (i : ℕ) (hi : i < zombies.length)
        (hi' : i < (meleeAttack sqrt playerAlive currentTime lastMeleeTime px pz dirX dirZ
          zombies).1.length),
        (meleeQualifies sqrt px pz dirX dirZ (zombies.get ⟨i, hi⟩) = true →
          (meleeAttack sqrt playerAlive currentTime lastMeleeTime px pz dirX dirZ
              zombies).1.get ⟨i, hi'⟩ =
            meleeApply sqrt px pz currentTime (zombies.get ⟨i, hi⟩) ∧
          ((meleeAttack sqrt playerAlive currentTime lastMeleeTime px pz dirX dirZ
              zombies).1.get ⟨i, hi'⟩).health =
            max 0 ((zombies.get ⟨i, hi⟩).health - 15) ∧
          ((meleeAttack sqrt playerAlive currentTime lastMeleeTime px pz dirX dirZ
              zombies).1.get ⟨i, hi'⟩).isRagdolled = true) ∧
        (meleeQualifies sqrt px pz dirX dirZ (zombies.get ⟨i, hi⟩) = false →
          (meleeAttack sqrt playerAlive currentTime lastMeleeTime px pz dirX dirZ
              zombies).1.get ⟨i, hi'⟩ = zombies.get ⟨i, hi⟩)) := by
  refine ⟨?_, ?_, ?_⟩
  · intro hdead
    unfold meleeAttack
    rw [if_pos hdead]
  · intro hcool
    unfold meleeAttack
    split_ifs
    · rfl
    · rfl
  · intro halive hcool hpos
    have hfire : meleeAttack sqrt playerAlive currentTime lastMeleeTime px pz dirX dirZ
        zombies =
        (zombies.map fun z =>
          if meleeQualifies sqrt px pz dirX dirZ z then meleeApply sqrt px pz currentTime z
          else z, currentTime) := by
      unfold meleeAttack
      rw [if_neg (by rw [halive]; exact fun h => Bool.noConfusion h)]
      rw [if_neg (not_lt_of_le hcool)]
    rw [hfire]
    refine ⟨rfl, List.length_map _ _, ?_⟩
    intro i hi hi'
    have hget : ((zombies.map fun z =>
        if meleeQualifies sqrt px pz dirX dirZ z then meleeApply sqrt px pz currentTime z
        else z : List Zombie).get ⟨i, hi'⟩) =
        (fun z => if meleeQualifies sqrt px pz dirX dirZ z
          then meleeApply sqrt px pz currentTime z else z) (zombies.get ⟨i, hi⟩) := by
      simp [List.get_map]
    constructor
    · intro hq
      rw [hget]
      dsimp only
      rw [if_pos hq]
      have hzalive := (meleeQualifies_spec sqrt px pz dirX dirZ _ hq).1
      have hposd := hpos _ (meleeQualifies_posDistSq sqrt px pz dirX dirZ _ hq)
      exact ⟨rfl, meleeApply_health sqrt px pz currentTime _ hzalive,
        meleeApply_ragdolled sqrt px pz currentTime _ hposd⟩
    · intro hq
      rw [hget]
      dsimp only
      rw [if_neg (by rw [hq]; exact fun h => Bool.noConfusion h)]

/-- Witness for C6: player at the origin facing +z; zombies at (0, 2) (in
range, in front) and (0, -2) (behind).  Off cooldown, the front zombie is
damaged to 35 and ragdolled; the rear zombie is untouched.  The oracle maps
4 ↦ 2 and is the identity elsewhere, so positive inputs get positive roots. -/
theorem melee_hits_all_in_cone_or_noop_witness :
    ((meleeAttack (fun q => if q = 4 then 2 else q) true 10 0 0 0 0 1
        [{ x := 0, y := 2 }, { x := 0, y := -2 }]).1.length =
      ([{ x := 0, y := 2 }, { x := 0, y := -2 }] : List Zombie).length) ∧
    ((meleeAttack (fun q => if q = 4 then 2 else q) true 10 0 0 0 0 1
        [{ x := 0, y := 2 }, { x := 0, y := -2 }]).2 = 10) ∧
    (∀ hi' : 0 < (meleeAttack (fun q => if q = 4 then 2 else q) true 10 0 0 0 0 1
        [{ x := 0, y := 2 }, { x := 0, y := -2 }]).1.length,
      ((meleeAttack (fun q => if q = 4 then 2 else q) true 10 0 0 0 0 1
        [{ x := 0, y := 2 }, { x := 0, y := -2 }]).1.get ⟨0, hi'⟩).health =
          max 0 (50 - 15) ∧
      ((meleeAttack (fun q => if q = 4 then 2 else q) true 10 0 0 0 0 1
        [{ x := 0, y := 2 }, { x := 0, y := -2 }]).1.get ⟨0, hi'⟩).isRagdolled = true) ∧
    (∀ hi' : 1 < (meleeAttack (fun q => if q = 4 then 2 else q) true 10 0 0 0 0 1
        [{ x := 0, y := 2 }, { x := 0, y := -2 }]).1.length,
      (meleeAttack (fun q => if q = 4 then 2 else q) true 10 0 0 0 0 1
        [{ x := 0, y := 2 }, { x := 0, y := -2 }]).1.get ⟨1, hi'⟩ =
        { x := 0, y := -2 }) := by
  have hmain := melee_hits_all_in_cone_or_noop (fun q => if q = 4 then 2 else q) true
    10 0 0 0 0 1 [{ x := 0, y := 2 }, { x := 0, y := -2 }]
  have hfire := hmain.2.2 rfl (by norm_num [meleeCooldown])
    (fun s hs => by
      show (0:ℚ) < if s = 4 then 2 else s
      split_ifs with h
      · norm_num
      · exact hs)
  refine ⟨hfire.2.1, hfire.1, ?_, ?_⟩
  · intro hi'
    have h0 := hfire.2.2 0 (by norm_num) hi'
    have hq : meleeQualifies (fun q => if q = 4 then 2 else q) 0 0 0 1
        (([{ x := 0, y := 2 }, { x := 0, y := -2 }] : List Zombie).get
          ⟨0, by norm_num⟩) = true := by
      norm_num [meleeQualifies, meleeRange]
    have := h0.1 hq
    exact ⟨this.2.1, this.2.2⟩
  · intro hi'
    have h1 := hfire.2.2 1 (by norm_num) hi'
    have hq : meleeQualifies (fun q => if q = 4 then 2 else q) 0 0 0 1
        (([{ x := 0, y := 2 }, { x := 0, y := -2 }] : List Zombie).get
          ⟨1, by norm_num⟩) = false := by
      norm_num [meleeQualifies, meleeRange]
    exact h1.2 hq

/-- `damageAt` preserves the length of the zombie list. -/
theorem damageAt_length (now dmg : ℚ) (i : ℕ) (l : List Zombie) :
    (damageAt now dmg i l).length = l.length := by
  induction l generalizing i with
  | nil => cases i <;> rfl
  | cons z zs ih =>
    cases i with
    | zero => rfl
    | succ n => exact congrArg Nat.succ (ih n)

/-- `damageAt` damages exactly the zombie at the given index and leaves every
other entry untouched. -/
theorem damageAt_get (now dmg : ℚ) (i : ℕ) (l : List Zombie) (j : ℕ)
    (hj : j < l.length) (hj' : j < (damageAt now dmg i l).length) :
    (damageAt now dmg i l).get ⟨j, hj'⟩ =
      if j = i then (l.get ⟨j, hj⟩).takeDamage now (some dmg) else l.get ⟨j, hj⟩ := by
  induction l generalizing i j with
  | nil => exact absurd hj (Nat.not_lt_zero j)
  | cons z zs ih =>
    cases i with
    | zero =>
      cases j with
      | zero => rfl
      | succ m => simp [damageAt]
    | succ n =>
      cases j with
      | zero => simp [damageAt]
      | succ m =>
        have hm : m < zs.length := Nat.lt_of_succ_lt_succ hj
        have hm' : m < (damageAt now dmg n zs).length := Nat.lt_of_succ_lt_succ hj'
        have := ih n m hm hm'
        simpa [damageAt, Nat.succ_inj] using this

/-- Fold invariant of `pickNearest`: a returned element either was the
accumulator or belongs to the list, is bounded by the accumulator's distance,
and is minimal among the list's distances. -/
theorem pickNearest_fold_spec (entries : List (ℕ × ℚ)) (acc : Option (ℕ × ℚ)) (r : ℕ × ℚ)
    (h : entries.foldl
        (fun best e =>
          match best with
          | none => some e
          | some b => if e.2 < b.2 then some e else some b) acc = some r) :
    (acc = some r ∨ r ∈ entries) ∧ (∀ b, acc = some b → r.2 ≤ b.2) ∧
      ∀ e ∈ entries, r.2 ≤ e.2 := by
  induction entries generalizing acc with
  | nil =>
    refine ⟨Or.inl h, ?_, fun e he => absurd he (List.not_mem_nil e)⟩
    intro b hb
    rw [hb] at h
    cases h
    exact le_refl _
  | cons e es ih =>
    rw [List.foldl_cons] at h
    obtain ⟨h1, h2, h3⟩ := ih _ h
    cases acc with
    | none =>
      dsimp only at h1 h2
      refine ⟨?_, fun b hb => Option.noConfusion hb, ?_⟩
      · rcases h1 with h1 | h1
        · cases h1
          exact Or.inr (List.mem_cons_self _ _)
        · exact Or.inr (List.mem_cons_of_mem e h1)
      · intro x hx
        rcases List.mem_cons.mp hx with hx | hx
        · rw [hx]
          exact h2 e rfl
        · exact h3 x hx
    | some b =>
      dsimp only at h1 h2
      by_cases hlt : e.2 < b.2
      · rw [if_pos hlt] at h1 h2
        refine ⟨?_, ?_, ?_⟩
        · rcases h1 with h1 | h1
          · cases h1
            exact Or.inr (List.mem_cons_self _ _)
          · exact Or.inr (List.mem_cons_of_mem e h1)
        · intro b' hb'
          cases hb'
          exact le_trans (h2 e rfl) (le_of_lt hlt)
        · intro x hx
          rcases List.mem_cons.mp hx with hx | hx
          · rw [hx]
            exact h2 e rfl
          · exact h3 x hx
      · rw [if_neg hlt] at h1 h2
        refine ⟨?_, ?_, ?_⟩
        · rcases h1 with h1 | h1
          · exact Or.inl h1
          · exact Or.inr (List.mem_cons_of_mem e h1)
        · intro b' hb'
          cases hb'
          exact h2 b rfl
        · intro x hx
          rcases List.mem_cons.mp hx with hx | hx
          · rw [hx]
            exact le_trans (h2 b rfl) (not_lt.mp hlt)
          · exact h3 x hx

/-- A `pickNearest` result belongs to the entry list and has minimal
distance. -/
theorem pickNearest_spec (entries : List (ℕ × ℚ)) (r : ℕ × ℚ)
    (h : pickNearest entries = some r) :
    r ∈ entries ∧ ∀ e ∈ entries, r.2 ≤ e.2 := by
  obtain ⟨h1, -, h3⟩ := pickNearest_fold_spec entries none r h
  rcases h1 with h1 | h1
  · exact Option.noConfusion h1
  · exact ⟨h1, h3⟩

/-- Membership in the `targetable` pipeline, unpacked to an index, the
qualification predicate and the recorded distance. -/
theorem targetable_mem_elim (sqrt : ℚ → ℚ) (bulletStart dir : Vec3) (w : Weapon)
    (zombies : List Zombie) (i : ℕ) (d : ℚ)
    (h : (i, d) ∈ targetable sqrt bulletStart dir w zombies) :
    ∃ hi : i < zombies.length,
      shootQualifies sqrt bulletStart dir w (zombies.get ⟨i, hi⟩) = true ∧
      d = shootDist sqrt bulletStart (zombies.get ⟨i, hi⟩).meshPos := by
  unfold targetable at h
  obtain ⟨p, hp, hpe⟩ := List.mem_map.mp h
  obtain ⟨hpenum, hpq⟩ := List.mem_filter.mp hp
  have hi1 : p.1 = i := congrArg Prod.fst hpe
  have hi2 : shootDist sqrt bulletStart p.2.meshPos = d := congrArg Prod.snd hpe
  have hget : zombies[p.1]? = some p.2 := List.mem_enum_iff_getElem?.mp hpenum
  have hlt : p.1 < zombies.length := (List.getElem?_eq_some.mp hget).1
  have hval : zombies.get ⟨p.1, hlt⟩ = p.2 := by
    have := (List.getElem?_eq_some.mp hget).2
    simpa [List.get_eq_getElem] using this
  subst hi1
  refine ⟨hlt, ?_, ?_⟩
  · rw [hval]
    exact hpq
  · rw [hval, ← hi2]

/-- Introduction for `targetable` membership: every qualifying index
contributes its entry. -/
theorem targetable_mem_intro (sqrt : ℚ → ℚ) (bulletStart dir : Vec3) (w : Weapon)
    (zombies : List Zombie) (j : ℕ) (hj : j < zombies.length)
    (hq : shootQualifies sqrt bulletStart dir w (zombies.get ⟨j, hj⟩) = true) :
    (j, shootDist sqrt bulletStart (zombies.get ⟨j, hj⟩).meshPos) ∈
      targetable sqrt bulletStart dir w zombies := by
  unfold targetable
  refine List.mem_map.mpr ⟨(j, zombies.get ⟨j, hj⟩), ?_, rfl⟩
  refine List.mem_filter.mpr ⟨?_, hq⟩
  refine List.mem_enum_iff_getElem?.mpr ?_
  exact List.getElem?_eq_some.mpr ⟨hj, rfl⟩

/-- C1: when `shootZombie` (player alive) selects a target, that target is a
living zombie satisfying `distance ≤ weapon.range` and `angleCos >
weapon.accuracy`, its distance is minimal among all qualifying zombies, and
the resulting zombie list applies `weapon.damage` to exactly that zombie,
leaving every other zombie untouched; distances and angle cosines are the
quantities the source computes (through `Math.sqrt`, here the oracle). -/
theorem shot_hits_nearest_in_cone (sqrt : ℚ → ℚ) (bulletStart dir : Vec3) (w : Weapon)
    (zombies : List Zombie) (now : ℚ) (i : ℕ) (d : ℚ)
    (hsel : selectTarget sqrt bulletStart dir w zombies = some (i, d)) :
    ∃ hi : i < zombies.length,
      shootQualifies sqrt bulletStart dir w (zombies.get ⟨i, hi⟩) = true ∧
      d = shootDist sqrt bulletStart (zombies.get ⟨i, hi⟩).meshPos ∧
      (∀ (j : ℕ) (hj : j < zombies.length),
        shootQualifies sqrt bulletStart dir w (zombies.get ⟨j, hj⟩) = true →
        d ≤ shootDist sqrt bulletStart (zombies.get ⟨j, hj⟩).meshPos) ∧
      shootZombie sqrt true bulletStart dir w zombies now = damageAt now w.damage i zombies ∧
      (shootZombie sqrt true bulletStart dir w zombies now).length = zombies.length ∧
      ∀ (j : ℕ) (hj : j < zombies.length)
        (hj' : j < (shootZombie sqrt true bulletStart dir w zombies now).length),
        (shootZombie sqrt true bulletStart dir w zombies now).get ⟨j, hj'⟩ =
          if j = i then (zombies.get ⟨j, hj⟩).takeDamage now (some w.damage)
          else zombies.get ⟨j, hj⟩ := by
  obtain ⟨hmem, hmin⟩ := pickNearest_spec _ _ hsel
  obtain ⟨hi, hq, hd⟩ := targetable_mem_elim sqrt bulletStart dir w zombies i d hmem
  have hshoot : shootZombie sqrt true bulletStart dir w zombies now =
      damageAt now w.damage i zombies := by
    unfold shootZombie
    rw [if_neg (fun h => Bool.noConfusion h)]
    rw [show selectTarget sqrt bulletStart dir w zombies = some (i, d) from hsel]
  refine ⟨hi, hq, hd, ?_, hshoot, ?_, ?_⟩
  · intro j hj hqj
    exact hmin _ (targetable_mem_intro sqrt bulletStart dir w zombies j hj hqj)
  · rw [hshoot]
    exact damageAt_length now w.damage i zombies
  · intro j hj hj'
    have hj'' : j < (damageAt now w.damage i zombies).length := by
      rw [← hshoot]
      exact hj'
    have hg := damageAt_get now w.damage i zombies j hj hj''
    rw [List.get_eq_getElem] at hg ⊢
    simp only [hshoot]
    exact hg

/-- Witness for C1, the spec's two-enemy scenario: player at the origin facing
+z with the default pistol (damage 50, range 50, accuracy 0.9); zombies in the
cone at distances 8 and 5 (in that list order).  The distance-5 zombie (index
1) is selected and damaged; the distance-8 zombie is untouched. -/
theorem shot_hits_nearest_in_cone_witness :
    ∃ hi : 1 < ([{ x := 0, y := 8 }, { x := 0, y := 5 }] : List Zombie).length,
      shootQualifies (fun q => if q = 64 then 8 else if q = 25 then 5 else 0)
        ⟨0, 0, 0⟩ ⟨0, 0, 1⟩ { }
        (([{ x := 0, y := 8 }, { x := 0, y := 5 }] : List Zombie).get ⟨1, hi⟩) = true ∧
      (5:ℚ) = shootDist (fun q => if q = 64 then 8 else if q = 25 then 5 else 0) ⟨0, 0, 0⟩
        (([{ x := 0, y := 8 }, { x := 0, y := 5 }] : List Zombie).get ⟨1, hi⟩).meshPos ∧
      (∀ (j : ℕ) (hj : j < ([{ x := 0, y := 8 }, { x := 0, y := 5 }] : List Zombie).length),
        shootQualifies (fun q => if q = 64 then 8 else if q = 25 then 5 else 0)
          ⟨0, 0, 0⟩ ⟨0, 0, 1⟩ { }
          (([{ x := 0, y := 8 }, { x := 0, y := 5 }] : List Zombie).get ⟨j, hj⟩) = true →
        (5:ℚ) ≤ shootDist (fun q => if q = 64 then 8 else if q = 25 then 5 else 0) ⟨0, 0, 0⟩
          (([{ x := 0, y := 8 }, { x := 0, y := 5 }] : List Zombie).get ⟨j, hj⟩).meshPos) ∧
      shootZombie (fun q => if q = 64 then 8 else if q = 25 then 5 else 0) true
          ⟨0, 0, 0⟩ ⟨0, 0, 1⟩ { } [{ x := 0, y := 8 }, { x := 0, y := 5 }] 3 =
        damageAt 3 ({ } : Weapon).damage 1 [{ x := 0, y := 8 }, { x := 0, y := 5 }] ∧
      (shootZombie (fun q => if q = 64 then 8 else if q = 25 then 5 else 0) true
          ⟨0, 0, 0⟩ ⟨0, 0, 1⟩ { } [{ x := 0, y := 8 }, { x := 0, y := 5 }] 3).length =
        ([{ x := 0, y := 8 }, { x := 0, y := 5 }] : List Zombie).length ∧
      ∀ (j : ℕ) (hj : j < ([{ x := 0, y := 8 }, { x := 0, y := 5 }] : List Zombie).length)
        (hj' : j < (shootZombie (fun q => if q = 64 then 8 else if q = 25 then 5 else 0) true
          ⟨0, 0, 0⟩ ⟨0, 0, 1⟩ { } [{ x := 0, y := 8 }, { x := 0, y := 5 }] 3).length),
        (shootZombie (fun q => if q = 64 then 8 else if q = 25 then 5 else 0) true
            ⟨0, 0, 0⟩ ⟨0, 0, 1⟩ { } [{ x := 0, y := 8 }, { x := 0, y := 5 }] 3).get ⟨j, hj'⟩ =
          if j = 1 then
            (([{ x := 0, y := 8 }, { x := 0, y := 5 }] : List Zombie).get
              ⟨j, hj⟩).takeDamage 3 (some ({ } : Weapon).damage)
          else ([{ x := 0, y := 8 }, { x := 0, y := 5 }] : List Zombie).get ⟨j, hj⟩ :=
  shot_hits_nearest_in_cone (fun q => if q = 64 then 8 else if q = 25 then 5 else 0)
    ⟨0, 0, 0⟩ ⟨0, 0, 1⟩ { } [{ x := 0, y := 8 }, { x := 0, y := 5 }] 3 1 5
    (by norm_num [selectTarget, targetable, pickNearest, shootQualifies, shootDist,
      shootAngleCos, Zombie.meshPos, List.enum, List.enumFrom, List.filter, List.foldl])

/-- Algebraic core of the truncated pursuit step: scaling the step by
`(d - 1/2)/d` keeps the end point at squared distance at least `1/4` from the
player whenever the step length is at most the current distance `d`. -/
theorem truncation_bound (A B d cs dt : ℚ) (hd : 1/2 < d) (hABd : A*A + B*B = d*d)
    (h0 : 0 ≤ cs * dt) (hle : cs * dt ≤ d) :
    1/4 ≤ (A - A / d * cs * dt * ((d - 1/2)/d)) * (A - A / d * cs * dt * ((d - 1/2)/d))
        + (B - B / d * cs * dt * ((d - 1/2)/d)) * (B - B / d * cs * dt * ((d - 1/2)/d)) := by
  have hdpos : 0 < d := lt_trans (by norm_num) hd
  have hdne : d ≠ 0 := ne_of_gt hdpos
  have hrw : ∀ C : ℚ, C - C / d * cs * dt * ((d - 1/2)/d)
      = C * ((d*d - cs*dt*(d - 1/2)) / (d*d)) := by
    intro C
    field_simp
    ring
  rw [hrw A, hrw B]
  set u := (d*d - cs*dt*(d - 1/2)) / (d*d) with hu
  have hexp : A * u * (A * u) + B * u * (B * u) = (d*d) * (u*u) := by
    linear_combination (u*u) * hABd
  rw [hexp]
  have hmulu : d * u = (d*d - cs*dt*(d - 1/2)) / d := by
    rw [hu]
    field_simp
    ring
  have hdu : 1/2 ≤ d * u := by
    rw [hmulu, le_div_iff hdpos]
    nlinarith
  nlinarith [hdu, mul_self_nonneg (d*u - 1/2)]

/-- C9 (amended): pursuit steering skips the entire movement step —
unconditionally, for every `deltaTime` and oracle — when the computed distance
is at most the 0.5 stand-off buffer, so no normalization or division is ever
performed there; with an exact oracle this covers the zero-distance case
(`Math.sqrt(0) = 0 ≤ 0.5`), which is how division by zero is avoided.  When
the step does run (`distance > 0.5`) and its length `chaseSpeed · deltaTime`
does not exceed the current distance, the step — whether accepted or rescaled
by `(distance - buffer)/distance` — leaves the enemy at squared distance at
least `buffer²` from the player.  (A step longer than the current distance can
land strictly inside the buffer, and the rescaled step generally stops short
of, not exactly at, the buffer: see the counterexample theorem.)  The oracle
hypotheses of the last clause say `sqrt` is exact on the current and tentative
squared distances; each clause carries only the hypotheses it needs. -/
theorem pursuit_buffer_guarded (sqrt : ℚ → ℚ) (z : Zombie) (deltaTime px pz d : ℚ) :
    (d ≤ 1/2 → Zombie.chase sqrt z deltaTime px pz d = z) ∧
    (d * d = z.distSq px pz → z.distSq px pz = 0 →
      Zombie.chase sqrt z deltaTime px pz d = z) ∧
    (1/2 < d →
      d * d = z.distSq px pz →
      0 ≤ sqrt (z.chaseNewSq deltaTime px pz d) →
      sqrt (z.chaseNewSq deltaTime px pz d) * sqrt (z.chaseNewSq deltaTime px pz d) =
        z.chaseNewSq deltaTime px pz d →
      0 ≤ z.chaseSpeed d * deltaTime →
      z.chaseSpeed d * deltaTime ≤ d →
      (1/2) * (1/2) ≤ Zombie.distSq (Zombie.chase sqrt z deltaTime px pz d) px pz) := by
  have hskip : ∀ _ : d ≤ 1/2, Zombie.chase sqrt z deltaTime px pz d = z := by
    intro hle
    unfold Zombie.chase
    dsimp only
    rw [if_neg (not_lt_of_le hle)]
  refine ⟨hskip, ?_, ?_⟩
  · intro hdsq h0
    refine hskip ?_
    have : d * d = 0 := hdsq.trans h0
    rw [mul_self_eq_zero.mp this]
    norm_num
  · intro hg hdsq hnew0 hnewsq hstep0 hstepd
    have hABd : (px - z.x) * (px - z.x) + (pz - z.y) * (pz - z.y) = d * d := by
      unfold Zombie.distSq at hdsq
      linarith
    unfold Zombie.chase
    dsimp only
    rw [if_pos hg]
    split_ifs with hnd
    · have hnd' : 1/2 ≤ sqrt (z.chaseNewSq deltaTime px pz d) := hnd
      show (1:ℚ)/2 * (1/2) ≤ z.chaseNewSq deltaTime px pz d
      rw [← hnewsq]
      nlinarith [hnd', hnew0]
    · unfold Zombie.distSq
      dsimp only
      have hrw : (px - (z.x + (px - z.x) / d * z.chaseSpeed d * deltaTime * ((d - 1/2) / d))) *
            (px - (z.x + (px - z.x) / d * z.chaseSpeed d * deltaTime * ((d - 1/2) / d))) +
          (pz - (z.y + (pz - z.y) / d * z.chaseSpeed d * deltaTime * ((d - 1/2) / d))) *
            (pz - (z.y + (pz - z.y) / d * z.chaseSpeed d * deltaTime * ((d - 1/2) / d))) =
          ((px - z.x) - (px - z.x) / d * (z.chaseSpeed d) * deltaTime * ((d - 1/2) / d)) *
            ((px - z.x) - (px - z.x) / d * (z.chaseSpeed d) * deltaTime * ((d - 1/2) / d)) +
          ((pz - z.y) - (pz - z.y) / d * (z.chaseSpeed d) * deltaTime * ((d - 1/2) / d)) *
            ((pz - z.y) - (pz - z.y) / d * (z.chaseSpeed d) * deltaTime * ((d - 1/2) / d)) := by
        ring
      rw [hrw, show (1:ℚ)/2 * (1/2) = 1/4 by norm_num]
      exact truncation_bound (px - z.x) (pz - z.y) d (z.chaseSpeed d) deltaTime hg hABd
        hstep0 hstepd

/-- Witness for the amended C9, all three clauses non-vacuously.  Skip clause:
a zombie at (0.3, 0) with computed distance 0.3 ≤ 0.5 is left exactly in place
over a full-length frame (`deltaTime = 1`).  Zero-distance clause: a zombie
exactly at the player's position, with the exact root 0 of the squared
distance 0, is likewise left in place — no division happens.  Buffer clause:
a zombie at (3, 4) (distance 5, inside the 50 detection radius), default
speed 5/2, `deltaTime = 8/29` so the step length is exactly 1 ≤ 5; the
accepted step ends at squared distance 16 ≥ 1/4.  The oracles map the squares
that occur (9/100; 0; 25 and 16) exactly. -/
theorem pursuit_buffer_guarded_witness :
    Zombie.chase (fun q => if q = 9/100 then 3/10 else 0) { x := 3/10, y := 0 } 1 0 0 (3/10) =
      { x := 3/10, y := 0 } ∧
    Zombie.chase (fun _ => 0) { x := 0, y := 0 } 1 0 0 0 = { x := 0, y := 0 } ∧
    (1:ℚ)/2 * (1/2) ≤ Zombie.distSq
      (Zombie.chase (fun q => if q = 16 then 4 else if q = 25 then 5 else 0)
        { x := 3, y := 4 } (8/29) 0 0 5) 0 0 :=
  ⟨(pursuit_buffer_guarded (fun q => if q = 9/100 then 3/10 else 0) { x := 3/10, y := 0 }
      1 0 0 (3/10)).1 (by norm_num),
   (pursuit_buffer_guarded (fun _ => 0) { x := 0, y := 0 } 1 0 0 0).2.1
      (by norm_num [Zombie.distSq]) (by norm_num [Zombie.distSq]),
   (pursuit_buffer_guarded (fun q => if q = 16 then 4 else if q = 25 then 5 else 0)
      { x := 3, y := 4 } (8/29) 0 0 5).2.2
      (by norm_num)
      (by norm_num [Zombie.distSq])
      (by norm_num [Zombie.chaseNewSq, Zombie.chaseSpeed, Zombie.detectionRange, min_def])
      (by norm_num [Zombie.chaseNewSq, Zombie.chaseSpeed, Zombie.detectionRange, min_def])
      (by norm_num [Zombie.chaseSpeed, Zombie.detectionRange, min_def])
      (by norm_num [Zombie.chaseSpeed, Zombie.detectionRange, min_def])⟩

/-- Counterexample to C9 as stated: a zombie at (1, 0) with the player at the
origin is at distance 1 — inside the 50 detection radius and outside the 0.5
buffer — and the oracle is the exact square root at both squares the update
computes (1 ↦ 1, 1/25 ↦ 1/5).  With speed 100/149 the chase speed is exactly
1, and `deltaTime = 6/5` makes the step length 6/5 exceed the distance; the
"truncated" step then carries the zombie to x = 2/5, squared distance 4/25 <
1/4 — strictly inside the stand-off buffer, and not at it.  So the movement
step is neither skipped nor stopped at the buffer: the claim's "never closer
than the stand-off" fails for steps longer than the current distance. -/
theorem pursuit_buffer_counterexample :
    Zombie.distSq
        (({ x := 1, y := 0, speed := 100/149 } : Zombie).update
          (fun s => if s = 1 then 1 else if s = 1/25 then 1/5 else 0) (6/5) 0 0 0 0 0) 0 0 =
      4/25 ∧
    (4:ℚ)/25 < (1/2) * (1/2) ∧
    (({ x := 1, y := 0, speed := 100/149 } : Zombie).update
        (fun s => if s = 1 then 1 else if s = 1/25 then 1/5 else 0) (6/5) 0 0 0 0 0).x ≠ 1 ∧
    Zombie.distSq ({ x := 1, y := 0, speed := 100/149 } : Zombie) 0 0 = 1 ∧
    (fun s : ℚ => if s = 1 then 1 else if s = 1/25 then 1/5 else 0) 1 * 
      (fun s : ℚ => if s = 1 then 1 else if s = 1/25 then 1/5 else 0) 1 = 1 ∧
    (fun s : ℚ => if s = 1 then 1 else if s = 1/25 then 1/5 else 0) (1/25) *
      (fun s : ℚ => if s = 1 then 1 else if s = 1/25 then 1/5 else 0) (1/25) = 1/25 ∧
    (fun s : ℚ => if s = 1 then 1 else if s = 1/25 then 1/5 else 0)
        (Zombie.distSq ({ x := 1, y := 0, speed := 100/149 } : Zombie) 0 0) ≤
      Zombie.detectionRange := by
  refine ⟨?_, by norm_num, ?_, ?_, by norm_num, by norm_num, ?_⟩ <;>
    norm_num [Zombie.update, Zombie.chase, Zombie.ragdollStep, Zombie.wander, Zombie.distSq,
      Zombie.chaseSpeed, Zombie.detectionRange, min_def]

/-- Invariant of the `removeOldestDistantZombie` scan loop: the running
maximum never decreases, the final best is either the initial accumulator or a
living zombie of the list (whose index is offset by the starting index `i`)
at exactly the recorded distance, and every living zombie's distance is
bounded by the final maximum. -/
theorem furthestScan_spec (sqrt : ℚ → ℚ) (px pz : ℚ) (zs : List Zombie) (i k : ℕ) (m : ℚ) :
    (m ≤ (furthestScan sqrt px pz zs i (k, m)).2) ∧
    (furthestScan sqrt px pz zs i (k, m) = (k, m) ∨
      ∃ (j : ℕ) (hj : j < zs.length),
        (furthestScan sqrt px pz zs i (k, m)).1 = i + j ∧
        (zs.get ⟨j, hj⟩).isAlive = true ∧
        (furthestScan sqrt px pz zs i (k, m)).2 = Zombie.distTo sqrt px pz (zs.get ⟨j, hj⟩)) ∧
    ∀ (j : ℕ) (hj : j < zs.length), (zs.get ⟨j, hj⟩).isAlive = true →
      Zombie.distTo sqrt px pz (zs.get ⟨j, hj⟩) ≤ (furthestScan sqrt px pz zs i (k, m)).2 := by
  induction zs generalizing i k m with
  | nil =>
    exact ⟨le_refl m, Or.inl rfl, fun j hj => absurd hj (Nat.not_lt_zero j)⟩
  | cons z zs ih =>
    have hstep : ∀ b : ℕ × ℚ, furthestScan sqrt px pz (z :: zs) i b =
        furthestScan sqrt px pz zs (i + 1)
          (if z.isAlive = true ∧ b.2 < Zombie.distTo sqrt px pz z
           then (i, Zombie.distTo sqrt px pz z) else b) := fun b => rfl
    rw [hstep (k, m)]
    by_cases hcond : z.isAlive = true ∧ m < Zombie.distTo sqrt px pz z
    · rw [if_pos hcond]
      obtain ⟨ha, hb, hc⟩ := ih (i + 1) i (Zombie.distTo sqrt px pz z)
      refine ⟨le_trans (le_of_lt hcond.2) ha, ?_, ?_⟩
      · rcases hb with hb | ⟨j', hj', h1, h2, h3⟩
        · refine Or.inr ⟨0, Nat.succ_pos _, ?_, hcond.1, ?_⟩
          · rw [hb]
            show i = i + 0
            omega
          · rw [hb]
            rfl
        · refine Or.inr ⟨j' + 1, Nat.succ_lt_succ hj', ?_, h2, h3⟩
          rw [h1]
          omega
      · intro j hj halive
        cases j with
        | zero => exact ha
        | succ j' => exact hc j' (Nat.lt_of_succ_lt_succ hj) halive
    · rw [if_neg hcond]
      obtain ⟨ha, hb, hc⟩ := ih (i + 1) k m
      refine ⟨ha, ?_, ?_⟩
      · rcases hb with hb | ⟨j', hj', h1, h2, h3⟩
        · exact Or.inl hb
        · refine Or.inr ⟨j' + 1, Nat.succ_lt_succ hj', ?_, h2, h3⟩
          rw [h1]
          omega
      · intro j hj halive
        cases j with
        | zero =>
          have hnd : ¬ m < Zombie.distTo sqrt px pz z := fun hlt => hcond ⟨halive, hlt⟩
          exact le_trans (not_lt.mp hnd) ha
        | succ j' => exact hc j' (Nat.lt_of_succ_lt_succ hj) halive

/-- C7 (amended): `spawnZombie` never grows the collection past the cap —
below the cap it just appends, and at the cap it first evicts one zombie.
The evicted zombie is the one `removeOldestDistantZombie` scans to: the
furthest-from-player **living** zombie (dead zombies awaiting cleanup are
skipped by the scan, whatever their distance), with the first list element
evicted as the scan's fallback when no living zombie is at positive distance.
As stated — "the enemy with the greatest distance is evicted" — the claim
fails when a dead zombie lies further out than every living one: see the
counterexample theorem. -/
theorem spawn_cap_and_furthest_living_eviction (sqrt : ℚ → ℚ) (px pz : ℚ)
    (playerAlive : Bool) (cap : ℕ) (zombies : List Zombie) (newZombie : Zombie) :
    (1 ≤ cap → zombies.length ≤ cap →
      (spawnZombie sqrt px pz playerAlive cap zombies newZombie).length ≤ cap) ∧
    (playerAlive = true → cap ≤ zombies.length → zombies ≠ [] →
      ∃ (k : ℕ) (hk : k < zombies.length),
        spawnZombie sqrt px pz playerAlive cap zombies newZombie =
          zombies.eraseIdx k ++ [newZombie] ∧
        (((zombies.get ⟨k, hk⟩).isAlive = true ∧
           ∀ (j : ℕ) (hj : j < zombies.length), (zombies.get ⟨j, hj⟩).isAlive = true →
             Zombie.distTo sqrt px pz (zombies.get ⟨j, hj⟩) ≤
               Zombie.distTo sqrt px pz (zombies.get ⟨k, hk⟩)) ∨
         (k = 0 ∧
           ∀ (j : ℕ) (hj : j < zombies.length), (zombies.get ⟨j, hj⟩).isAlive = true →
             Zombie.distTo sqrt px pz (zombies.get ⟨j, hj⟩) ≤ 0))) := by
  constructor
  · intro hcap hlen
    unfold spawnZombie
    split_ifs with hdead hfull
    · exact hlen
    · have hne : zombies ≠ [] := by
        intro h
        rw [h] at hfull
        simp at hfull
        omega
      unfold removeOldestDistantZombie
      rw [if_neg (by simpa using hne)]
      rw [List.length_append]
      have hk : (furthestScan sqrt px pz zombies 0 (0, 0)).1 < zombies.length := by
        obtain ⟨-, hb, -⟩ := furthestScan_spec sqrt px pz zombies 0 0 0
        rcases hb with hb | ⟨j, hj, h1, -, -⟩
        · rw [hb]
          cases zombies with
          | nil => exact absurd rfl hne
          | cons a l => exact Nat.succ_pos _
        · rw [h1]
          omega
      have := List.length_eraseIdx_add_one hk
      simp only [List.length_singleton]
      omega
    · rw [List.length_append]
      simp only [List.length_singleton]
      omega
  · intro halive hfull hne
    have hk : (furthestScan sqrt px pz zombies 0 (0, 0)).1 < zombies.length := by
      obtain ⟨-, hb, -⟩ := furthestScan_spec sqrt px pz zombies 0 0 0
      rcases hb with hb | ⟨j, hj, h1, -, -⟩
      · rw [hb]
        cases zombies with
        | nil => exact absurd rfl hne
        | cons a l => exact Nat.succ_pos _
      · rw [h1]
        omega
    refine ⟨(furthestScan sqrt px pz zombies 0 (0, 0)).1, hk, ?_, ?_⟩
    · unfold spawnZombie removeOldestDistantZombie
      rw [if_neg (by rw [halive]; exact fun h => Bool.noConfusion h)]
      rw [if_pos hfull, if_neg (by simpa using hne)]
    · obtain ⟨-, hb, hc⟩ := furthestScan_spec sqrt px pz zombies 0 0 0
      rcases hb with hb | ⟨j, hj, h1, h2, h3⟩
      · refine Or.inr ⟨by rw [hb], ?_⟩
        intro j hj halive'
        have := hc j hj halive'
        rw [hb] at this
        exact this
      · refine Or.inl ⟨?_, ?_⟩
        · have hgeq : zombies.get ⟨(furthestScan sqrt px pz zombies 0 (0, 0)).1, hk⟩ =
              zombies.get ⟨j, hj⟩ := congrArg zombies.get (Fin.ext (by simp only []; omega))
          rw [hgeq]
          exact h2
        · intro j' hj' halive'
          have hup := hc j' hj' halive'
          rw [h3] at hup
          have hgeq : zombies.get ⟨(furthestScan sqrt px pz zombies 0 (0, 0)).1, hk⟩ =
              zombies.get ⟨j, hj⟩ := congrArg zombies.get (Fin.ext (by simp only []; omega))
          rw [hgeq]
          exact hup

/-- Counterexample to C7 as stated: with the cap reached by a dead zombie at
distance 100 and a living zombie at distance 5, the spawn evicts the living
distance-5 zombie — not the distance-100 zombie, which has the greatest
distance of all enemies in the collection but is skipped because it is dead.
(Cap value 2 for a two-element collection; the source's field value is 200,
passed as an argument here.) -/
theorem eviction_not_furthest_counterexample :
    spawnZombie (fun s => if s = 10000 then 100 else if s = 25 then 5 else 0) 0 0 true 2
        [{ x := 100, y := 0, health := 0, isAlive := false, deathTime := some 1 },
         { x := 5, y := 0 }] { x := 60, y := 0 } =
      [{ x := 100, y := 0, health := 0, isAlive := false, deathTime := some 1 },
       { x := 60, y := 0 }] ∧
    Zombie.distTo (fun s => if s = 10000 then 100 else if s = 25 then 5 else 0) 0 0
      ({ x := 100, y := 0, health := 0, isAlive := false, deathTime := some 1 } : Zombie) =
      100 ∧
    Zombie.distTo (fun s => if s = 10000 then 100 else if s = 25 then 5 else 0) 0 0
      ({ x := 5, y := 0 } : Zombie) = 5 ∧
    (5:ℚ) < 100 := by
  refine ⟨?_, ?_, ?_, by norm_num⟩ <;>
    norm_num [spawnZombie, removeOldestDistantZombie, furthestScan, Zombie.distTo,
      List.eraseIdx]

/-- Witness for the amended C7: below the cap the spawn just appends (2 + 1 ≤
200), and at a cap of 2 with a dead far zombie and a living near one, the
eviction clause holds — the living zombie (index 1) is the one evicted. -/
theorem spawn_cap_and_furthest_living_eviction_witness :
    (spawnZombie (fun s => if s = 10000 then 100 else if s = 25 then 5 else 0) 0 0 true
        maxZombies [{ x := 100, y := 0 }, { x := 5, y := 0 }] { x := 60, y := 0 }).length ≤
      maxZombies ∧
    (∃ (k : ℕ) (hk : k < ([{ x := 100, y := 0, isAlive := false }, { x := 5, y := 0 }] : List Zombie).length),
      spawnZombie (fun s => if s = 10000 then 100 else if s = 25 then 5 else 0) 0 0 true 2
          [{ x := 100, y := 0, isAlive := false }, { x := 5, y := 0 }] { x := 60, y := 0 } =
        ([{ x := 100, y := 0, isAlive := false }, { x := 5, y := 0 }] : List Zombie).eraseIdx k ++
          [{ x := 60, y := 0 }] ∧
      (((([{ x := 100, y := 0, isAlive := false }, { x := 5, y := 0 }] : List Zombie).get ⟨k, hk⟩).isAlive = true ∧
         ∀ (j : ℕ) (hj : j < ([{ x := 100, y := 0, isAlive := false }, { x := 5, y := 0 }] : List Zombie).length),
           (([{ x := 100, y := 0, isAlive := false }, { x := 5, y := 0 }] : List Zombie).get ⟨j, hj⟩).isAlive = true →
           Zombie.distTo (fun s => if s = 10000 then 100 else if s = 25 then 5 else 0) 0 0
               (([{ x := 100, y := 0, isAlive := false }, { x := 5, y := 0 }] : List Zombie).get ⟨j, hj⟩) ≤
             Zombie.distTo (fun s => if s = 10000 then 100 else if s = 25 then 5 else 0) 0 0
               (([{ x := 100, y := 0, isAlive := false }, { x := 5, y := 0 }] : List Zombie).get ⟨k, hk⟩)) ∨
       (k = 0 ∧
         ∀ (j : ℕ) (hj : j < ([{ x := 100, y := 0, isAlive := false }, { x := 5, y := 0 }] : List Zombie).length),
           (([{ x := 100, y := 0, isAlive := false }, { x := 5, y := 0 }] : List Zombie).get ⟨j, hj⟩).isAlive = true →
           Zombie.distTo (fun s => if s = 10000 then 100 else if s = 25 then 5 else 0) 0 0
               (([{ x := 100, y := 0, isAlive := false }, { x := 5, y := 0 }] : List Zombie).get ⟨j, hj⟩) ≤ 0))) :=
  ⟨(spawn_cap_and_furthest_living_eviction
      (fun s => if s = 10000 then 100 else if s = 25 then 5 else 0) 0 0 true maxZombies
      [{ x := 100, y := 0 }, { x := 5, y := 0 }] { x := 60, y := 0 }).1
      (by norm_num [maxZombies]) (by norm_num [maxZombies]),
   (spawn_cap_and_furthest_living_eviction
      (fun s => if s = 10000 then 100 else if s = 25 then 5 else 0) 0 0 true 2
      [{ x := 100, y := 0, isAlive := false }, { x := 5, y := 0 }] { x := 60, y := 0 }).2
      rfl (by norm_num) (List.cons_ne_nil _ _)⟩
